import Mathlib

/-!
Verification development for the bamtabridsazan GSC-to-BigQuery ingestion
scripts.  The Python sources are shallowly embedded: pure helpers become
Lean functions, the fetch loops become explicit recursions over an oracle
of API responses, and the Python `set` of existing keys becomes a
`List String` used only through membership and insertion.

External library functions used by the sources (`hashlib.sha256`,
`urllib.parse`, Python `str` methods) are embedded as executable Lean
functions implementing their documented behaviour; Python text methods
are modelled on the ASCII range, which covers every value the scripts
and the claims manipulate.
-/

namespace GscToBq

set_option maxRecDepth 100000

/-! ### Python string primitives -/

/-- Whitespace characters stripped by Python `str.strip()` (ASCII range). -/
def pyIsSpace (c : Char) : Bool :=
  c = ' ' || c = '\t' || c = '\n' || c = '\r' || c = Char.ofNat 11 || c = Char.ofNat 12

/-- Python `str.lower()` on one character (ASCII range). -/
def pyLowerChar (c : Char) : Char :=
  if 'A' ≤ c && c ≤ 'Z' then Char.ofNat (c.toNat + 32) else c

/-- Python `str.lower()` (ASCII range). -/
def pyLower (s : String) : String :=
  String.mk (s.data.map pyLowerChar)

/-- Python `str.strip()`: drop leading and trailing whitespace. -/
def pyStrip (s : String) : String :=
  String.mk (((s.data.dropWhile pyIsSpace).reverse.dropWhile pyIsSpace).reverse)

/-- Python `str.rstrip(chars)` for a single character: drop every trailing
occurrence of that character. -/
def pyRstripChar (c : Char) (s : String) : String :=
  String.mk ((s.data.reverse.dropWhile (fun x => x = c)).reverse)

/-- Python slice `s[:n]`. -/
def pySlice (n : Nat) (s : String) : String :=
  String.mk (s.data.take n)

/-! ### UTF-8 encoding (for `str.encode("utf-8")`) -/

/-- UTF-8 bytes of one code point. -/
def utf8Char (c : Char) : List Nat :=
  let n := c.toNat
  if n < 128 then [n]
  else if n < 2048 then [192 + n / 64, 128 + n % 64]
  else if n < 65536 then [224 + n / 4096, 128 + (n / 64) % 64, 128 + n % 64]
  else [240 + n / 262144, 128 + (n / 4096) % 64, 128 + (n / 64) % 64, 128 + n % 64]

/-- UTF-8 bytes of a string (Python `s.encode("utf-8")`). -/
def utf8 (s : String) : List Nat :=
  s.data.flatMap utf8Char

/-! ### SHA-256 (FIPS 180-4), as used by `hashlib.sha256(...).hexdigest()` -/

/-- Addition modulo 2^32. -/
def add32 (a b : Nat) : Nat := (a + b) % 4294967296

/-- Right rotation of a 32-bit word. -/
def rotr32 (n x : Nat) : Nat :=
  ((x >>> n) ||| (x <<< (32 - n))) % 4294967296

def sha256Ch (x y z : Nat) : Nat := (x &&& y) ^^^ ((x ^^^ 4294967295) &&& z)

def sha256Maj (x y z : Nat) : Nat := (x &&& y) ^^^ (x &&& z) ^^^ (y &&& z)

def bigSigma0 (x : Nat) : Nat := rotr32 2 x ^^^ rotr32 13 x ^^^ rotr32 22 x

def bigSigma1 (x : Nat) : Nat := rotr32 6 x ^^^ rotr32 11 x ^^^ rotr32 25 x

def smallSigma0 (x : Nat) : Nat := rotr32 7 x ^^^ rotr32 18 x ^^^ (x >>> 3)

def smallSigma1 (x : Nat) : Nat := rotr32 17 x ^^^ rotr32 19 x ^^^ (x >>> 10)

/-- The 64 SHA-256 round constants of FIPS 180-4, in decimal. -/
def sha256K : List Nat :=
  [1116352408, 1899447441, 3049323471, 3921009573, 961987163,
   1508970993, 2453635748, 2870763221, 3624381080, 310598401,
   607225278, 1426881987, 1925078388, 2162078206, 2614888103,
   3248222580, 3835390401, 4022224774, 264347078, 604807628,
   770255983, 1249150122, 1555081692, 1996064986, 2554220882,
   2821834349, 2952996808, 3210313671, 3336571891, 3584528711,
   113926993, 338241895, 666307205, 773529912, 1294757372,
   1396182291, 1695183700, 1986661051, 2177026350, 2456956037,
   2730485921, 2820302411, 3259730800, 3345764771, 3516065817,
   3600352804, 4094571909, 275423344, 430227734, 506948616,
   659060556, 883997877, 958139571, 1322822218, 1537002063,
   1747873779, 1955562222, 2024104815, 2227730452, 2361852424,
   2428436474, 2756734187, 3204031479, 3329325298]

/-- Initial SHA-256 hash state of FIPS 180-4, in decimal. -/
def sha256H0 : List Nat :=
  [1779033703, 3144134277, 1013904242, 2773480762,
   1359893119, 2600822924, 528734635, 1541459225]

/-- Big-endian byte expansion of a value into `w` bytes. -/
def bytesBE : Nat → Nat → List Nat
  | 0, _ => []
  | w + 1, v => bytesBE w (v >>> 8) ++ [v &&& 255]

/-- SHA-256 message padding: append 0x80, zeros, and the 64-bit bit length. -/
def padMsg (msg : List Nat) : List Nat :=
  let padZeros := (119 - msg.length % 64) % 64
  msg ++ 128 :: List.replicate padZeros 0 ++ bytesBE 8 (8 * msg.length)

/-- Split a byte list into 64-byte blocks (fuel-indexed helper). -/
def chunksAux : Nat → List Nat → List (List Nat)
  | 0, _ => []
  | _, [] => []
  | fuel + 1, l => l.take 64 :: chunksAux fuel (l.drop 64)

def chunks64 (l : List Nat) : List (List Nat) := chunksAux l.length l

/-- Combine big-endian bytes into 32-bit words. -/
def toWords : List Nat → List Nat
  | a :: b :: c :: d :: rest => (((a * 256 + b) * 256 + c) * 256 + d) :: toWords rest
  | _ => []

/-- Extend the 16 message words to the 64-entry schedule. -/
def extendW : Nat → Array Nat → Array Nat
  | 0, ws => ws
  | k + 1, ws =>
    let i := ws.size
    let w := add32 (add32 (smallSigma1 (ws.getD (i - 2) 0)) (ws.getD (i - 7) 0))
                   (add32 (smallSigma0 (ws.getD (i - 15) 0)) (ws.getD (i - 16) 0))
    extendW k (ws.push w)

/-- Working state of the compression function. -/
structure Sha256State where
  a : Nat
  b : Nat
  c : Nat
  d : Nat
  e : Nat
  f : Nat
  g : Nat
  h : Nat

/-- One round of the SHA-256 compression function. -/
def sha256Round (ws : Array Nat) (st : Sha256State) (t : Nat) : Sha256State :=
  let t1 := add32 st.h (add32 (bigSigma1 st.e)
              (add32 (sha256Ch st.e st.f st.g)
                (add32 (sha256K.getD t 0) (ws.getD t 0))))
  let t2 := add32 (bigSigma0 st.a) (sha256Maj st.a st.b st.c)
  { a := add32 t1 t2, b := st.a, c := st.b, d := st.c,
    e := add32 st.d t1, f := st.e, g := st.f, h := st.g }

/-- Compress one 64-byte block into the running hash value. -/
def sha256Compress (hs : List Nat) (block : List Nat) : List Nat :=
  let ws := extendW 48 (Array.mk (toWords block))
  let st0 : Sha256State :=
    { a := hs.getD 0 0, b := hs.getD 1 0, c := hs.getD 2 0, d := hs.getD 3 0,
      e := hs.getD 4 0, f := hs.getD 5 0, g := hs.getD 6 0, h := hs.getD 7 0 }
  let st := (List.range 64).foldl (sha256Round ws) st0
  [add32 (hs.getD 0 0) st.a, add32 (hs.getD 1 0) st.b,
   add32 (hs.getD 2 0) st.c, add32 (hs.getD 3 0) st.d,
   add32 (hs.getD 4 0) st.e, add32 (hs.getD 5 0) st.f,
   add32 (hs.getD 6 0) st.g, add32 (hs.getD 7 0) st.h]

/-- The eight 32-bit words of the SHA-256 digest of a byte message. -/
def sha256Words (msg : List Nat) : List Nat :=
  (chunks64 (padMsg msg)).foldl sha256Compress sha256H0

/-- One lowercase hexadecimal digit. -/
def hexDigit (n : Nat) : Char :=
  if n < 10 then Char.ofNat (48 + n) else Char.ofNat (87 + n)

/-- Lowercase hexadecimal rendering of a value into `w` digits. -/
def toHexW : Nat → Nat → List Char
  | 0, _ => []
  | w + 1, v => toHexW w (v / 16) ++ [hexDigit (v % 16)]

/-- `hashlib.sha256(bytes).hexdigest()`. -/
def sha256hexBytes (msg : List Nat) : String :=
  String.mk ((sha256Words msg).flatMap (toHexW 8))

/-- `hashlib.sha256(s.encode("utf-8")).hexdigest()`. -/
def sha256hexStr (s : String) : String :=
  sha256hexBytes (utf8 s)

/-! ### `urllib.parse` embedding (for `normalize_url` in gsc_to_bq.py) -/

/-- Index of the first occurrence of `c`, counting from `i`. -/
def findCharAux (c : Char) : List Char → Nat → Option Nat
  | [], _ => none
  | x :: xs, i => if x = c then some i else findCharAux c xs (i + 1)

/-- Python `s.find(c)` as an `Option` (no occurrence gives `none`). -/
def findChar (c : Char) (l : List Char) : Option Nat := findCharAux c l 0

/-- Python `s.find(c, start)` as an `Option`. -/
def findCharFrom (c : Char) (start : Nat) (l : List Char) : Option Nat :=
  (findChar c (l.drop start)).map (· + start)

/-- Python `s.rfind(c)` as an `Option`. -/
def rfindChar (c : Char) (l : List Char) : Option Nat :=
  (findChar c l.reverse).map (fun i => l.length - 1 - i)

/-- Python `s.split(c, 1)`: split at the first occurrence of `c`. -/
def splitFirst (c : Char) : List Char → Option (List Char × List Char)
  | [] => none
  | x :: xs =>
    if x = c then some ([], xs)
    else (splitFirst c xs).map (fun p => (x :: p.1, p.2))

/-- Python `s.split(c)`: split at every occurrence, keeping empty pieces. -/
def splitAll (c : Char) : List Char → List (List Char)
  | [] => [[]]
  | x :: xs =>
    let r := splitAll c xs
    if x = c then [] :: r
    else
      match r with
      | h :: t => (x :: h) :: t
      | [] => [[x]]

def isAsciiAlpha (c : Char) : Bool :=
  ('a' ≤ c && c ≤ 'z') || ('A' ≤ c && c ≤ 'Z')

def isAsciiDigit (c : Char) : Bool := '0' ≤ c && c ≤ '9'

/-- Characters allowed in a URL scheme (`urllib.parse.scheme_chars`). -/
def isSchemeChar (c : Char) : Bool :=
  isAsciiAlpha c || isAsciiDigit c || c = '+' || c = '-' || c = '.'

/-- The split made by `urllib.parse.urlsplit`. -/
structure UrlParts where
  scheme : List Char
  netloc : List Char
  path : List Char
  query : List Char
  fragment : List Char

/-- `urllib.parse.urlsplit`: tab/CR/LF removal, scheme, netloc, fragment and
query extraction, in CPython's order. -/
def pyUrlsplit (input : List Char) : UrlParts :=
  let url := input.filter (fun c => !(c = '\t' || c = '\r' || c = '\n'))
  let schemeUrl :=
    match findChar ':' url with
    | some i =>
      if 0 < i && isAsciiAlpha (url.headD ' ') && (url.take i).all isSchemeChar
      then ((url.take i).map pyLowerChar, url.drop (i + 1))
      else ([], url)
    | none => ([], url)
  let scheme := schemeUrl.1
  let url := schemeUrl.2
  let netlocUrl :=
    if url.take 2 = ['/', '/'] then
      let rest := url.drop 2
      let delim := min ((findChar '/' rest).getD rest.length)
                     (min ((findChar '?' rest).getD rest.length)
                          ((findChar '#' rest).getD rest.length))
      (rest.take delim, rest.drop delim)
    else ([], url)
  let netloc := netlocUrl.1
  let url := netlocUrl.2
  let urlFrag :=
    match splitFirst '#' url with
    | some p => p
    | none => (url, [])
  let urlQuery :=
    match splitFirst '?' urlFrag.1 with
    | some p => p
    | none => (urlFrag.1, [])
  { scheme := scheme, netloc := netloc, path := urlQuery.1,
    query := urlQuery.2, fragment := urlFrag.2 }

/-- `urllib.parse._splitparams`, keeping only the path part (the caller in
`normalize_url` passes empty params to `urlunparse`). -/
def splitParamsPath (url : List Char) : List Char :=
  if url.contains ';' then
    if url.contains '/' then
      match rfindChar '/' url with
      | some r =>
        match findCharFrom ';' r url with
        | some i => url.take i
        | none => url
      | none => url
    else
      match findChar ';' url with
      | some i => url.take i
      | none => url
  else url

/-- CPython's `urlsplit` raises `ValueError` when the netloc has mismatched
IPv6 brackets; `normalize_url` catches that in its `except` branch. -/
def bracketMismatch (netloc : List Char) : Bool :=
  (netloc.contains '[' && !netloc.contains ']') ||
  (netloc.contains ']' && !netloc.contains '[')

/-! UTF-8 decoding with U+FFFD replacement, for `unquote(errors="replace")`. -/

def isContByte (b : Nat) : Bool := 128 ≤ b && b < 192

def replacementChar : Char := Char.ofNat 65533

/-- Fuel-indexed UTF-8 decoder (fuel bounds the number of steps). -/
def utf8DecodeAux : Nat → List Nat → List Char
  | 0, _ => []
  | _, [] => []
  | fuel + 1, b :: rest =>
    if b < 128 then Char.ofNat b :: utf8DecodeAux fuel rest
    else if 194 ≤ b && b ≤ 223 then
      match rest with
      | b2 :: rest2 =>
        if isContByte b2 then
          Char.ofNat ((b - 192) * 64 + (b2 - 128)) :: utf8DecodeAux fuel rest2
        else replacementChar :: utf8DecodeAux fuel rest
      | [] => [replacementChar]
    else if 224 ≤ b && b ≤ 239 then
      match rest with
      | b2 :: b3 :: rest3 =>
        if isContByte b2 && isContByte b3 &&
           (b ≠ 224 || 160 ≤ b2) && (b ≠ 237 || b2 < 160) then
          Char.ofNat (((b - 224) * 64 + (b2 - 128)) * 64 + (b3 - 128)) ::
            utf8DecodeAux fuel rest3
        else replacementChar :: utf8DecodeAux fuel rest
      | _ => [replacementChar]
    else if 240 ≤ b && b ≤ 244 then
      match rest with
      | b2 :: b3 :: b4 :: rest4 =>
        if isContByte b2 && isContByte b3 && isContByte b4 &&
           (b ≠ 240 || 144 ≤ b2) && (b ≠ 244 || b2 < 144) then
          Char.ofNat ((((b - 240) * 64 + (b2 - 128)) * 64 + (b3 - 128)) * 64 +
              (b4 - 128)) :: utf8DecodeAux fuel rest4
        else replacementChar :: utf8DecodeAux fuel rest
      | _ => [replacementChar]
    else replacementChar :: utf8DecodeAux fuel rest

def utf8Decode (bs : List Nat) : List Char := utf8DecodeAux bs.length bs

def hexVal (c : Char) : Option Nat :=
  if isAsciiDigit c then some (c.toNat - 48)
  else if 'a' ≤ c && c ≤ 'f' then some (c.toNat - 87)
  else if 'A' ≤ c && c ≤ 'F' then some (c.toNat - 55)
  else none

/-- Percent-decoding to bytes: a valid `%XX` escape becomes one byte, other
characters contribute their UTF-8 bytes (fuel-indexed). -/
def percentDecodeAux : Nat → List Char → List Nat
  | 0, _ => []
  | _, [] => []
  | fuel + 1, c :: rest =>
    if c = '%' then
      match rest with
      | h1 :: h2 :: rest2 =>
        match hexVal h1, hexVal h2 with
        | some v1, some v2 => (v1 * 16 + v2) :: percentDecodeAux fuel rest2
        | _, _ => utf8Char '%' ++ percentDecodeAux fuel rest
      | _ => utf8Char '%' ++ percentDecodeAux fuel rest
    else utf8Char c ++ percentDecodeAux fuel rest

/-- `urllib.parse.unquote` with UTF-8 decoding and `errors="replace"`. -/
def pyUnquote (l : List Char) : List Char :=
  utf8Decode (percentDecodeAux l.length l)

/-- `unquote_plus` semantics used by `parse_qsl`: first `+` becomes a space,
then percent-escapes are decoded. -/
def pyUnquotePlus (l : List Char) : String :=
  String.mk (pyUnquote (l.map (fun c => if c = '+' then ' ' else c)))

/-- `urllib.parse.parse_qsl(query, keep_blank_values=True)`. -/
def parseQsl (qs : List Char) : List (String × String) :=
  if qs = [] then []
  else
    (splitAll '&' qs).filterMap fun nv =>
      if nv = [] then none
      else
        match splitFirst '=' nv with
        | some p => some (pyUnquotePlus p.1, pyUnquotePlus p.2)
        | none => some (pyUnquotePlus nv, "")

/-- Bytes never quoted by `urllib.parse.quote` (letters, digits, `_.-~`). -/
def isAlwaysSafeByte (b : Nat) : Bool :=
  (48 ≤ b && b ≤ 57) || (65 ≤ b && b ≤ 90) || (97 ≤ b && b ≤ 122) ||
  b = 95 || b = 46 || b = 45 || b = 126

def hexDigitUpper (n : Nat) : Char :=
  if n < 10 then Char.ofNat (48 + n) else Char.ofNat (55 + n)

/-- `urllib.parse.quote_plus` with empty `safe`, applied bytewise to the
UTF-8 encoding: safe bytes pass through, space becomes `+`, the rest become
uppercase percent escapes. -/
def pyQuotePlus (s : String) : String :=
  String.mk ((utf8 s).flatMap fun b =>
    if isAlwaysSafeByte b then [Char.ofNat b]
    else if b = 32 then ['+']
    else ['%', hexDigitUpper (b / 16), hexDigitUpper (b % 16)])

/-- `urllib.parse.urlencode` over an association list (default
`quote_via=quote_plus`, `doseq=False`). -/
def pyUrlencode (pairs : List (String × String)) : String :=
  String.intercalate "&" (pairs.map fun kv => pyQuotePlus kv.1 ++ "=" ++ pyQuotePlus kv.2)

/-- `urllib.parse.urlunparse` on six string components. -/
def pyUrlunparse (scheme netloc url params query fragment : String) : String :=
  let url := if params ≠ "" then url ++ ";" ++ params else url
  let url :=
    if netloc ≠ "" || url.take 2 = "//" then
      "//" ++ netloc ++ (if url ≠ "" && url.take 1 ≠ "/" then "/" ++ url else url)
    else url
  let url := if scheme ≠ "" then scheme ++ ":" ++ url else url
  let url := if query ≠ "" then url ++ "?" ++ query else url
  if fragment ≠ "" then url ++ "#" ++ fragment else url

/-! ### normalize_url (gsc_to_bq.py lines 75 to 99) -/

/-- `normalize_url` from gsc_to_bq.py: strip, parse, lowercase scheme and
netloc, drop every trailing slash of the path, drop the fragment, drop
`utm_*` query parameters, reassemble; on a parse error (mismatched IPv6
brackets) fall back to `url.lower().rstrip("/")`.  The `or ""` at the call
site means a missing page is passed in as the empty string, for which the
function returns the empty string (`if not url`). -/
def normalize_url (url : String) : String :=
  if url = "" then ""
  else
    let url := pyStrip url
    let parts := pyUrlsplit url.data
    if bracketMismatch parts.netloc then pyRstripChar '/' (pyLower url)
    else
      let scheme := pyLower (String.mk parts.scheme)
      let netloc := pyLower (String.mk parts.netloc)
      let path := pyRstripChar '/' (String.mk (splitParamsPath parts.path))
      let cleaned := (parseQsl parts.query).filter fun kv =>
        !(kv.1.startsWith "utm_")
      let query := pyUrlencode cleaned
      pyUrlunparse scheme netloc path "" query ""

/-! ### Configuration constants shared by the revisions -/

def ROW_LIMIT : Nat := 25000

def MAX_RETRIES : Nat := 3

def RETRY_DELAY : Nat := 60

/-! ### Date values

A record's `Date` field is either absent (Python `None`), a string from the
API, or a `datetime`; the key functions branch on `isinstance`. -/

inductive DateVal where
  | str (s : String)
  | dt (year month day : Nat)
deriving DecidableEq

def padTwo (n : Nat) : String :=
  if n < 10 then "0" ++ toString n else toString n

def padFour (n : Nat) : String :=
  if n < 10 then "000" ++ toString n
  else if n < 100 then "00" ++ toString n
  else if n < 1000 then "0" ++ toString n
  else toString n

/-- `datetime.strftime("%Y-%m-%d")`. -/
def strftimeYmd (y m d : Nat) : String :=
  padFour y ++ "-" ++ padTwo m ++ "-" ++ padTwo d

/-- The date component of the key in gsc_to_bq.py (lines 112 to 118) and
rev6 (lines 92 to 98): a string is sliced to 10 characters, a datetime is
formatted, anything else (here: a missing value) goes through
`str(...)[:10]`, so `None` becomes the string `"None"`. -/
def dateKeyPart : Option DateVal → String
  | some (DateVal.str s) => pySlice 10 s
  | some (DateVal.dt y m d) => strftimeYmd y m d
  | none => pySlice 10 "None"

/-! ### Identity key of gsc_to_bq.py rev 1 (`stable_key`, lines 102 to 121) -/

/-- The `row_dict` passed to rev 1's `stable_key`: `Date`, `Query`, `Page`,
each possibly missing. -/
structure Row1 where
  Date : Option DateVal
  Query : Option String
  Page : Option String
deriving DecidableEq

/-- `(row.get("Query") or "").strip().lower()`. -/
def normQueryR1 (row : Row1) : String :=
  pyLower (pyStrip (row.Query.getD ""))

/-- `normalize_url(row.get("Page") or "")`. -/
def normPageR1 (row : Row1) : String :=
  normalize_url (row.Page.getD "")

/-- The delimited concatenation hashed by `stable_key`:
`"|".join((query, page, date))`. -/
def preHashR1 (row : Row1) : String :=
  String.intercalate "|" [normQueryR1 row, normPageR1 row, dateKeyPart row.Date]

/-- `stable_key` from gsc_to_bq.py: SHA-256 hex digest of the delimited
normalized triple. -/
def stable_key (row : Row1) : String :=
  sha256hexStr (preHashR1 row)

/-! ### Identity key of rev6 (`generate_unique_key`, lines 87 to 100)

The same function appears verbatim in
src/src/scripts/gsc_to_bq_searchtype_web_fullfetch.py (lines 100 to 113). -/

/-- A rev6 record.  `metrics` abstracts the pass-through payload (Clicks,
Impressions, CTR, Position, and in some revisions SearchAppearance and
SearchType), none of which enter the key. -/
structure Row6 (μ : Type) where
  Date : Option DateVal
  Query : Option String
  Page : Option String
  Country : Option String
  Device : Option String
  metrics : μ
deriving DecidableEq

/-- `(row.get(f) or "").strip().lower()`. -/
def normTextField (x : Option String) : String :=
  pyLower (pyStrip (x.getD ""))

/-- `(row.get("Page") or "").strip().lower().rstrip("/")`. -/
def normPageField (x : Option String) : String :=
  pyRstripChar '/' (pyLower (pyStrip (x.getD "")))

/-- The delimited concatenation hashed by `generate_unique_key`:
`"|".join([date, q, p, c, d])`. -/
def preHashRow6 {μ : Type} (row : Row6 μ) : String :=
  String.intercalate "|"
    [dateKeyPart row.Date, normTextField row.Query, normPageField row.Page,
     normTextField row.Country, normTextField row.Device]

/-- `generate_unique_key` from rev6: SHA-256 hex digest of the five
normalized fields, always all five, regardless of which dimension batch
produced the record. -/
def generate_unique_key {μ : Type} (row : Row6 μ) : String :=
  sha256hexStr (preHashRow6 row)

/-! ### Identity key of rev5 (`stable_key`, lines 79 to 89)

Rev5's date branch is
`row.get("Date")[:10] if isinstance(row.get("Date"), str) else
row.get("Date").strftime("%Y-%m-%d")`: there is no third branch, so a
missing (`None`) date raises `AttributeError`, modelled as `Except.error`. -/

structure Row5 (μ : Type) where
  Date : Option DateVal
  Query : Option String
  Page : Option String
  Country : Option String
  Device : Option String
  SearchAppearance : Option String
  metrics : μ
deriving DecidableEq

def stable_key_rev5 {μ : Type} (row : Row5 μ) : Except String String :=
  match row.Date with
  | some (DateVal.str s) =>
    Except.ok (sha256hexStr (String.intercalate "|"
      [normTextField row.Query, normPageField row.Page,
       normTextField row.Country, normTextField row.Device,
       normTextField row.SearchAppearance, pySlice 10 s]))
  | some (DateVal.dt y m d) =>
    Except.ok (sha256hexStr (String.intercalate "|"
      [normTextField row.Query, normPageField row.Page,
       normTextField row.Country, normTextField row.Device,
       normTextField row.SearchAppearance, strftimeYmd y m d]))
  | none => Except.error "AttributeError: NoneType object has no attribute strftime"

/-! ### Raw API rows and record construction (rev6 lines 192 to 211) -/

/-- One raw row from the search-analytics API: the dimension key tuple plus
the metrics payload. -/
structure GscApiRow (μ : Type) where
  keys : List String
  metrics : μ
deriving DecidableEq

/-- Record construction in rev6 `fetch_gsc_data`: positional indexing into
`keys` guarded by `len(keys)` checks, with the third key interpreted as
page, country or device according to the batch's dimension list. -/
def buildRow6 {μ : Type} (dims : List String) (r : GscApiRow μ) : Row6 μ :=
  let keys := r.keys
  let date := keys.get? 0
  let query := if "query" ∈ dims ∧ 1 < keys.length then keys.get? 1 else none
  let third := keys.get? 2
  { Date := date.map DateVal.str
    Query := query
    Page := if "page" ∈ dims then third else none
    Country := if "country" ∈ dims then third else none
    Device := if "device" ∈ dims then third else none
    metrics := r.metrics }

/-- A record that passed the duplicate filter, carrying its computed
`unique_key` (rev6 line 216). -/
structure KeyedRow6 (μ : Type) where
  row : Row6 μ
  unique_key : String
deriving DecidableEq

/-- The per-page duplicate filter of rev6 `fetch_gsc_data` (lines 191 to
217): build each record, compute its key, skip it when the key is already
in `existing_keys`, otherwise add the key to the set immediately and emit
the record.  The key set is modelled as a list used through membership. -/
def filterRows6 {μ : Type} (dims : List String) :
    List (GscApiRow μ) → List String → List (KeyedRow6 μ) × List String
  | [], existing => ([], existing)
  | r :: rest, existing =>
    let row := buildRow6 dims r
    let k := generate_unique_key row
    if k ∈ existing then filterRows6 dims rest existing
    else
      let res := filterRows6 dims rest (k :: existing)
      (⟨row, k⟩ :: res.1, res.2)

/-! ### The rev 1 per-page loop and whole-run processing
(gsc_to_bq.py lines 168 to 241) -/

/-- A row of `all_new_rows` in rev 1: date, query, page, metrics payload and
the stable key. -/
structure OutRowR1 (μ : Type) where
  date : String
  query : String
  page : String
  metrics : μ
  unique_key : String
deriving DecidableEq

/-- The stable key rev 1 computes for a raw API row, when the row has the
three expected keys (`r["keys"][0..2]`; fewer keys would raise
`IndexError`). -/
def rowKeyR1 {μ : Type} (r : GscApiRow μ) : Option String :=
  match r.keys with
  | date :: query_text :: page :: _ =>
    some (stable_key
      { Date := some (DateVal.str date), Query := some query_text, Page := some page })
  | _ => none

/-- The per-page loop of rev 1 `fetch_gsc_data` (lines 200 to 217):
destructure each row (an `IndexError` on short keys aborts the page),
compute the stable key, and emit the row while adding its key to the set
when the key is new. -/
def processRowsR1 {μ : Type} :
    List (GscApiRow μ) → List String → Except String (List (OutRowR1 μ) × List String)
  | [], existing => Except.ok ([], existing)
  | r :: rest, existing =>
    match r.keys with
    | date :: query_text :: page :: _ =>
      let key := stable_key
        { Date := some (DateVal.str date), Query := some query_text, Page := some page }
      if key ∈ existing then processRowsR1 rest existing
      else
        match processRowsR1 rest (key :: existing) with
        | Except.ok res =>
          Except.ok (⟨date, query_text, page, r.metrics, key⟩ :: res.1, res.2)
        | Except.error e => Except.error e
    | _ => Except.error "IndexError"

/-- A whole rev 1 run over its successive pages: `existing_keys` is loaded
once before the loop and threaded through every page; the new rows of all
pages are concatenated (`all_new_rows`). -/
def runPagesR1 {μ : Type} :
    List (List (GscApiRow μ)) → List String →
    Except String (List (OutRowR1 μ) × List String)
  | [], existing => Except.ok ([], existing)
  | pg :: rest, existing =>
    match processRowsR1 pg existing with
    | Except.error e => Except.error e
    | Except.ok res1 =>
      match runPagesR1 rest res1.2 with
      | Except.error e => Except.error e
      | Except.ok res2 => Except.ok (res1.1 ++ res2.1, res2.2)

/-! ### Pagination skeleton (gsc_to_bq.py lines 175 to 237)

`pageTrace api rowLimit fuel startRow` is the list of requests the fetch
loop issues when every API call succeeds, each paired with the page the API
returned for its offset.  It mirrors the control flow exactly: issue the
request, break on an empty page, break after a page shorter than the row
limit, otherwise advance the offset by the page length.  `fuel` bounds the
recursion; a trace that ends by breaking is independent of any larger
fuel. -/

def pageTrace {α : Type} (api : Nat → List α) (rowLimit : Nat) :
    Nat → Nat → List (Nat × List α)
  | 0, _ => []
  | fuel + 1, startRow =>
    let rows := api startRow
    (startRow, rows) ::
      (if rows.isEmpty then []
       else if rows.length < rowLimit then []
       else pageTrace api rowLimit fuel (startRow + rows.length))

/-! ### Retry skeletons

The oracle is the list of successive outcomes of
`service.searchanalytics().query(...).execute()`, in the order the calls
are made; an `Except.error` is a raised exception.  `fetchR1` mirrors the
rev 1 loop (lines 175 to 237): any exception increments the shared
`retry_count` (never reset), and once `retry_count > MAX_RETRIES` the loop
breaks; otherwise the same offset is retried after the fixed delay.
`fetchR6` mirrors the rev6 loop (lines 170 to 230): any exception just
sleeps and retries the same offset, with no counter and no bound.  Both
return the successful pages with their offsets. -/

def fetchR1 {α : Type} (rowLimit maxRetries : Nat) :
    List (Except String (List α)) → Nat → Nat → List (Nat × List α)
  | [], _, _ => []
  | o :: rest, startRow, retryCount =>
    match o with
    | Except.error _ =>
      if maxRetries < retryCount + 1 then []
      else fetchR1 rowLimit maxRetries rest startRow (retryCount + 1)
    | Except.ok rows =>
      if rows.isEmpty then []
      else
        (startRow, rows) ::
          (if rows.length < rowLimit then []
           else fetchR1 rowLimit maxRetries rest (startRow + rows.length) retryCount)

def fetchR6 {α : Type} (rowLimit : Nat) :
    List (Except String (List α)) → Nat → List (Nat × List α)
  | [], _ => []
  | o :: rest, startRow =>
    match o with
    | Except.error _ => fetchR6 rowLimit rest startRow
    | Except.ok rows =>
      if rows.isEmpty then []
      else
        (startRow, rows) ::
          (if rows.length < rowLimit then []
           else fetchR6 rowLimit rest (startRow + rows.length))

/-! ### Warehouse write modes (claim C5)

Rev6's `upload_to_bq` (lines 129 to 148) always loads with
`write_disposition="WRITE_APPEND"`.  The searchtype_web revision's
`fetch_sitewide_batch` (lines 415 to 463) additionally issues its own load
jobs: a `WRITE_TRUNCATE` rewrite of the table when it found incomplete rows
to replace (step 2), and a `WRITE_APPEND` insert when it has new rows
(step 3).  `sitewideLoadModes` is the list of write dispositions those two
steps use, as a function of which steps run. -/

inductive WriteMode where
  | append
  | truncate
deriving DecidableEq

/-- The `write_disposition` of rev6 `upload_to_bq` (line 130). -/
def upload_to_bq_mode : WriteMode := WriteMode.append

/-- Write dispositions issued by `fetch_sitewide_batch` in
gsc_to_bq_searchtype_web_fullfetch.py, in order: the step 2 rewrite runs
exactly when `updated_count > 0` and uses `WRITE_TRUNCATE` (line 444); the
step 3 insert runs exactly when `df_new` is nonempty and uses
`WRITE_APPEND` (line 457). -/
def sitewideLoadModes (hasIncompleteUpdates hasNewRows : Bool) : List WriteMode :=
  (if hasIncompleteUpdates then [WriteMode.truncate] else []) ++
  (if hasNewRows then [WriteMode.append] else [])

/-! ### Sentinel rows (claim C10) -/

/-- The sitewide row built by rev6 `fetch_sitewide_batch` (lines 271 to 281
for fetched dates, lines 308 to 318 for placeholder dates): `Query` and
`Page` are the literal `"__SITE_TOTAL__"`, `Country` and `Device` are
`None`. -/
def sitewideRow {μ : Type} (dateStr : String) (m : μ) : Row6 μ :=
  { Date := some (DateVal.str dateStr), Query := some "__SITE_TOTAL__",
    Page := some "__SITE_TOTAL__", Country := none, Device := none, metrics := m }

/-- The no-index row built by `fetch_noindex_batch` in
gsc_to_bq_searchtype_web_fullfetch.py (lines 326 to 338): `Query` and
`Page` are the literal `"__NO_INDEX__"`, `Country` and `Device` are
`None` (its extra `SearchAppearance` and `SearchType` fields never enter
`generate_unique_key` and live in the metrics payload here). -/
def noIndexRow {μ : Type} (dateStr : String) (m : μ) : Row6 μ :=
  { Date := some (DateVal.str dateStr), Query := some "__NO_INDEX__",
    Page := some "__NO_INDEX__", Country := none, Device := none, metrics := m }

/-! ### Concrete example inputs used in the claim theorems and witnesses -/

/-- The first dimension batch of rev6 (line 161). -/
def dims3 : List String := ["date", "query", "page"]

/-- A raw API row whose normalized natural-key fields coincide with
`rawHvacLower` after trimming, lowercasing and trailing-slash stripping. -/
def rawHvacUpper : GscApiRow Unit := { keys := ["2025-09-01", "Hvac ", "/a/"], metrics := () }

def rawHvacLower : GscApiRow Unit := { keys := ["2025-09-01", "hvac", "/a"], metrics := () }

/-- Example API behaviour for the pagination claim: with row limit 2, the
page at offset 0 is full and the page at offset 2 has one row. -/
def c7api : Nat → List Nat :=
  fun n => if n = 0 then [10, 20] else if n = 2 then [30] else []

/-- One concrete rev 1 page for the idempotence witness. -/
def c1page : List (GscApiRow Unit) := [{ keys := ["2025-09-01", "hvac", "/a"], metrics := () }]

/-- The stable key of the row in `c1page` (SHA-256 of `"hvac|/a|2025-09-01"`). -/
def c1digest : String := "b484f0fdc2087d2d875177759c1c1d1f09c90f0dbb1410a88f13614c97b6b1a3"

def c1newRow : OutRowR1 Unit :=
  { date := "2025-09-01", query := "hvac", page := "/a", metrics := (), unique_key := c1digest }

/-- A record whose query contains the field delimiter. -/
def rowDelimA : Row1 :=
  { Date := some (DateVal.str "2025-09-01"), Query := some "a|b", Page := some "c" }

/-- A different record whose pre-hash concatenation collides with
`rowDelimA`. -/
def rowDelimB : Row1 :=
  { Date := some (DateVal.str "2025-09-01"), Query := some "a", Page := some "b|c" }

/-- The delimiter-collision pair named in the spec: query `a|b` with empty
page. -/
def rowDelimC : Row1 :=
  { Date := some (DateVal.str "2025-09-01"), Query := some "a|b", Page := some "" }

def rowDelimD : Row1 :=
  { Date := some (DateVal.str "2025-09-01"), Query := some "a", Page := some "b" }

/-- Trimming and case variants of the same natural key. -/
def rowTrimA : Row1 :=
  { Date := some (DateVal.str "2025-09-01"), Query := some "Hvac ", Page := some "/a/" }

def rowTrimB : Row1 :=
  { Date := some (DateVal.str "2025-09-01"), Query := some "hvac", Page := some "/a" }

/-- A genuine API row whose query text lowercases to `__site_total__`. -/
def rawSiteTotal : GscApiRow Unit :=
  { keys := ["2025-09-01", "__Site_Total__", "__SITE_TOTAL__/"], metrics := () }

/-- A genuine API row whose query text lowercases to `__no_index__`. -/
def rawNoIndex : GscApiRow Unit :=
  { keys := ["2025-09-01", "__No_Index__", "__NO_INDEX__"], metrics := () }

/-! ### General lemmas -/

/-- The character data of rev 1's pre-hash concatenation. -/
theorem preHashR1_data (r : Row1) :
    (preHashR1 r).data =
      (normQueryR1 r).data ++ '|' ::
        ((normPageR1 r).data ++ '|' :: (dateKeyPart r.Date).data) := by
  show (normQueryR1 r ++ "|" ++ normPageR1 r ++ "|" ++ dateKeyPart r.Date).data = _
  simp [String.data_append]

/-- Splitting a delimited concatenation at the first delimiter is
unambiguous when the first field is delimiter-free. -/
theorem splitJoinChars :
    ∀ (a₁ a₂ rest₁ rest₂ : List Char), '|' ∉ a₁ → '|' ∉ a₂ →
      a₁ ++ '|' :: rest₁ = a₂ ++ '|' :: rest₂ → a₁ = a₂ ∧ rest₁ = rest₂ := by
  intro a₁
  induction a₁ with
  | nil =>
    intro a₂ rest₁ rest₂ _ h₂ heq
    cases a₂ with
    | nil => simpa using heq
    | cons c t =>
      simp only [List.nil_append, List.cons_append, List.cons.injEq] at heq
      exact absurd (heq.1 ▸ List.mem_cons_self c t) h₂
  | cons c t ih =>
    intro a₂ rest₁ rest₂ h₁ h₂ heq
    cases a₂ with
    | nil =>
      simp only [List.nil_append, List.cons_append, List.cons.injEq] at heq
      exact absurd (heq.1 ▸ List.mem_cons_self c t) h₁
    | cons c₂ t₂ =>
      simp only [List.cons_append, List.cons.injEq] at heq
      have ht := ih t₂ rest₁ rest₂ (fun hm => h₁ (List.mem_cons_of_mem c hm))
        (fun hm => h₂ (List.mem_cons_of_mem c₂ hm)) heq.2
      exact ⟨by rw [heq.1, ht.1], ht.2⟩

/-- The records emitted by the rev6 filter have keys outside the input set
and pairwise distinct keys. -/
theorem filterRows6_spec {μ : Type} (dims : List String) :
    ∀ (rows : List (GscApiRow μ)) (ex : List String),
      (∀ o ∈ (filterRows6 dims rows ex).1, o.unique_key ∉ ex) ∧
        ((filterRows6 dims rows ex).1.map KeyedRow6.unique_key).Nodup := by
  intro rows
  induction rows with
  | nil => intro ex; simp [filterRows6]
  | cons r rest ih =>
    intro ex
    by_cases hmem : generate_unique_key (buildRow6 dims r) ∈ ex
    · simpa [filterRows6, hmem] using ih ex
    · have h₂ := ih (generate_unique_key (buildRow6 dims r) :: ex)
      refine ⟨?_, ?_⟩
      · intro o ho
        simp only [filterRows6, hmem, if_false] at ho
        rcases List.mem_cons.mp ho with h | h
        · rw [h]; exact hmem
        · intro hin
          exact (h₂.1 o h) (List.mem_cons_of_mem _ hin)
      · simp only [filterRows6, hmem, if_false, List.map_cons]
        refine List.nodup_cons.mpr ⟨?_, h₂.2⟩
        intro hin
        rcases List.mem_map.mp hin with ⟨o, ho, hko⟩
        exact (h₂.1 o ho) (hko ▸ List.mem_cons_self _ _)

/-- A record whose key is already present changes nothing. -/
theorem filterRows6_skip {μ : Type} (dims : List String) (r : GscApiRow μ)
    (ex : List String) (h : generate_unique_key (buildRow6 dims r) ∈ ex) :
    filterRows6 dims [r] ex = ([], ex) := by
  simp [filterRows6, h]

/-- Success of the rev 1 page loop only ever grows the key set. -/
theorem processRowsR1_mono {μ : Type} :
    ∀ (rows : List (GscApiRow μ)) (ex : List String) (ns : List (OutRowR1 μ))
      (ex₂ : List String), processRowsR1 rows ex = Except.ok (ns, ex₂) →
      ∀ k ∈ ex, k ∈ ex₂ := by
  intro rows
  induction rows with
  | nil =>
    intro ex ns ex₂ h k hk
    simp only [processRowsR1, Except.ok.injEq, Prod.mk.injEq] at h
    rw [← h.2]; exact hk
  | cons r rest ih =>
    intro ex ns ex₂ h k hk
    rcases hkeys : r.keys with _ | ⟨d, _ | ⟨q, _ | ⟨p, tl⟩⟩⟩ <;>
      simp only [processRowsR1, hkeys] at h
    any_goals exact Except.noConfusion h
    by_cases hmem :
        stable_key { Date := some (DateVal.str d), Query := some q, Page := some p } ∈ ex
    · rw [if_pos hmem] at h
      exact ih ex ns ex₂ h k hk
    · rw [if_neg hmem] at h
      rcases hrec : processRowsR1 rest
          (stable_key { Date := some (DateVal.str d), Query := some q, Page := some p } :: ex)
        with e | res
      · rw [hrec] at h
        exact Except.noConfusion h
      · simp only [hrec, Except.ok.injEq, Prod.mk.injEq] at h
        rw [← h.2]
        exact ih _ res.1 res.2 (by rw [hrec]) k (List.mem_cons_of_mem _ hk)

/-- After a successful rev 1 page, every row's key is in the final set. -/
theorem processRowsR1_keys {μ : Type} :
    ∀ (rows : List (GscApiRow μ)) (ex : List String) (ns : List (OutRowR1 μ))
      (ex₂ : List String), processRowsR1 rows ex = Except.ok (ns, ex₂) →
      ∀ r ∈ rows, ∃ k, rowKeyR1 r = some k ∧ k ∈ ex₂ := by
  intro rows
  induction rows with
  | nil => intro ex ns ex₂ _ r hr; cases hr
  | cons r₀ rest ih =>
    intro ex ns ex₂ h r hr
    rcases hkeys : r₀.keys with _ | ⟨d, _ | ⟨q, _ | ⟨p, tl⟩⟩⟩ <;>
      simp only [processRowsR1, hkeys] at h
    any_goals exact Except.noConfusion h
    by_cases hmem :
        stable_key { Date := some (DateVal.str d), Query := some q, Page := some p } ∈ ex
    · rw [if_pos hmem] at h
      rcases List.mem_cons.mp hr with h₀ | h₁
      · exact ⟨_, by simp [rowKeyR1, h₀, hkeys],
          processRowsR1_mono rest ex ns ex₂ h _ hmem⟩
      · exact ih ex ns ex₂ h r h₁
    · rw [if_neg hmem] at h
      rcases hrec : processRowsR1 rest
          (stable_key { Date := some (DateVal.str d), Query := some q, Page := some p } :: ex)
        with e | res
      · rw [hrec] at h
        exact Except.noConfusion h
      · simp only [hrec, Except.ok.injEq, Prod.mk.injEq] at h
        rcases List.mem_cons.mp hr with h₀ | h₁
        · refine ⟨stable_key { Date := some (DateVal.str d), Query := some q, Page := some p },
            by simp [rowKeyR1, h₀, hkeys], ?_⟩
          rw [← h.2]
          exact processRowsR1_mono rest _ res.1 res.2 (by rw [hrec]) _
            (List.mem_cons_self _ _)
        · rcases ih _ res.1 res.2 (by rw [hrec]) r h₁ with ⟨k, hk₁, hk₂⟩
          exact ⟨k, hk₁, h.2 ▸ hk₂⟩

/-- When every row's key is already in the set, the rev 1 page loop emits
nothing and leaves the set unchanged. -/
theorem processRowsR1_skip {μ : Type} :
    ∀ (rows : List (GscApiRow μ)) (ex : List String),
      (∀ r ∈ rows, ∃ k, rowKeyR1 r = some k ∧ k ∈ ex) →
      processRowsR1 rows ex = Except.ok ([], ex) := by
  intro rows
  induction rows with
  | nil => intro ex _; rfl
  | cons r₀ rest ih =>
    intro ex h
    rcases h r₀ (List.mem_cons_self _ _) with ⟨k, hk₁, hk₂⟩
    rcases hkeys : r₀.keys with _ | ⟨d, _ | ⟨q, _ | ⟨p, tl⟩⟩⟩ <;>
      simp only [rowKeyR1, hkeys, Option.some.injEq] at hk₁
    any_goals exact Option.noConfusion hk₁
    rw [← hk₁] at hk₂
    simp only [processRowsR1, hkeys, if_pos hk₂]
    exact ih ex (fun r hr => h r (List.mem_cons_of_mem _ hr))

/-- Success of a whole rev 1 run only ever grows the key set. -/
theorem runPagesR1_mono {μ : Type} :
    ∀ (pages : List (List (GscApiRow μ))) (ex : List String)
      (ns : List (OutRowR1 μ)) (ex₂ : List String),
      runPagesR1 pages ex = Except.ok (ns, ex₂) → ∀ k ∈ ex, k ∈ ex₂ := by
  intro pages
  induction pages with
  | nil =>
    intro ex ns ex₂ h k hk
    simp only [runPagesR1, Except.ok.injEq, Prod.mk.injEq] at h
    rw [← h.2]; exact hk
  | cons pg rest ih =>
    intro ex ns ex₂ h k hk
    rcases h₁ : processRowsR1 pg ex with e | res₁ <;>
      simp only [runPagesR1, h₁] at h
    any_goals exact Except.noConfusion h
    rcases h₂ : runPagesR1 rest res₁.2 with e | res₂ <;>
      simp only [h₂, Except.ok.injEq, Prod.mk.injEq] at h
    any_goals exact Except.noConfusion h
    rw [← h.2]
    exact ih res₁.2 res₂.1 res₂.2 (by rw [h₂]) k
      (processRowsR1_mono pg ex res₁.1 res₁.2 (by rw [h₁]) k hk)

/-- After a successful rev 1 run, the key of every row of every page is in
the final key set. -/
theorem runPagesR1_keys {μ : Type} :
    ∀ (pages : List (List (GscApiRow μ))) (ex : List String)
      (ns : List (OutRowR1 μ)) (ex₂ : List String),
      runPagesR1 pages ex = Except.ok (ns, ex₂) →
      ∀ pg ∈ pages, ∀ r ∈ pg, ∃ k, rowKeyR1 r = some k ∧ k ∈ ex₂ := by
  intro pages
  induction pages with
  | nil => intro ex ns ex₂ _ pg hpg; cases hpg
  | cons pg₀ rest ih =>
    intro ex ns ex₂ h pg hpg r hr
    rcases h₁ : processRowsR1 pg₀ ex with e | res₁ <;>
      simp only [runPagesR1, h₁] at h
    any_goals exact Except.noConfusion h
    rcases h₂ : runPagesR1 rest res₁.2 with e | res₂ <;>
      simp only [h₂, Except.ok.injEq, Prod.mk.injEq] at h
    any_goals exact Except.noConfusion h
    · rcases List.mem_cons.mp hpg with h₀ | hrest
      · rcases processRowsR1_keys pg₀ ex res₁.1 res₁.2 (by rw [h₁]) r (h₀ ▸ hr)
          with ⟨k, hk₁, hk₂⟩
        refine ⟨k, hk₁, ?_⟩
        rw [← h.2]
        exact runPagesR1_mono rest res₁.2 res₂.1 res₂.2 (by rw [h₂]) k hk₂
      · rcases ih res₁.2 res₂.1 res₂.2 (by rw [h₂]) pg hrest r hr with ⟨k, hk₁, hk₂⟩
        exact ⟨k, hk₁, h.2 ▸ hk₂⟩

/-- When every key of every page is already present, a rev 1 run emits
nothing. -/
theorem runPagesR1_skip {μ : Type} :
    ∀ (pages : List (List (GscApiRow μ))) (ex : List String),
      (∀ pg ∈ pages, ∀ r ∈ pg, ∃ k, rowKeyR1 r = some k ∧ k ∈ ex) →
      runPagesR1 pages ex = Except.ok ([], ex) := by
  intro pages
  induction pages with
  | nil => intro ex _; rfl
  | cons pg rest ih =>
    intro ex h
    have h₁ : processRowsR1 pg ex = Except.ok ([], ex) :=
      processRowsR1_skip pg ex (h pg (List.mem_cons_self _ _))
    have h₂ : runPagesR1 rest ex = Except.ok ([], ex) :=
      ih ex (fun p hp => h p (List.mem_cons_of_mem _ hp))
    simp [runPagesR1, h₁, h₂]

/-- Consecutive requests in a page trace: each offset is the previous
offset plus the length of the previous page. -/
theorem pageTrace_chain {α : Type} (api : Nat → List α) (L : Nat) :
    ∀ (fuel s i : Nat) (d e : Nat × List α),
      (pageTrace api L fuel s).get? i = some d →
      (pageTrace api L fuel s).get? (i + 1) = some e →
      e.1 = d.1 + d.2.length := by
  intro fuel
  induction fuel with
  | zero =>
    intro s i d e hd _
    simp [pageTrace] at hd
  | succ f ih =>
    intro s i d e hd he
    by_cases h₁ : (api s).isEmpty
    · simp [pageTrace, h₁] at hd he
    by_cases h₂ : (api s).length < L
    · simp [pageTrace, h₁, h₂] at hd he
    have htr : pageTrace api L (f + 1) s =
        (s, api s) :: pageTrace api L f (s + (api s).length) := by
      simp [pageTrace, h₁, h₂]
    rw [htr] at hd he
    rcases i with _ | i
    · rw [List.get?_cons_zero, Option.some.injEq] at hd
      rw [List.get?_cons_succ] at he
      subst hd
      rcases f with _ | f
      · simp [pageTrace] at he
      · simp only [pageTrace, List.get?_cons_zero, Option.some.injEq] at he
        subst he
        rfl
    · rw [List.get?_cons_succ] at hd
      rw [List.get?_cons_succ] at he
      exact ih (s + (api s).length) i d e hd he

/-! ### Claim theorems -/

/-- C1: run idempotence of the rev 1 ingestion.  If a run over a sequence
of pages completes successfully from the key set `k₀`, yielding new rows
`new₁` and final key set `k₁`, and a second run loads from the warehouse a
key set `ex₂` containing exactly the keys of `k₁` (the initial keys plus
everything appended), then the second run over the same pages emits zero
new rows and leaves the key set unchanged. -/
theorem c1_second_run_inserts_nothing {μ : Type} (pages : List (List (GscApiRow μ)))
    (k₀ ex₂ : List String) (new₁ : List (OutRowR1 μ)) (k₁ : List String)
    (h₁ : runPagesR1 pages k₀ = Except.ok (new₁, k₁))
    (h₂ : ∀ k, k ∈ ex₂ ↔ k ∈ k₁) :
    runPagesR1 pages ex₂ = Except.ok ([], ex₂) :=
  runPagesR1_skip pages ex₂ (fun pg hpg r hr =>
    (runPagesR1_keys pages k₀ new₁ k₁ h₁ pg hpg r hr).imp
      (fun _ hk => ⟨hk.1, (h₂ _).mpr hk.2⟩))

/-- C1 witness: a run over one page with one row, followed by a second run
whose loaded key set is exactly what the first run appended. -/
theorem c1_witness :
    runPagesR1 [c1page] [c1digest] = Except.ok (([] : List (OutRowR1 Unit)), [c1digest]) :=
  c1_second_run_inserts_nothing [c1page] [] [c1digest] [c1newRow] [c1digest]
    (by rfl) (fun _ => Iff.rfl)

/-- C2 counterexample: `generate_unique_key` takes only the record, not the
dimension list.  The record produced by batch `[date, query, page]` (its
`Country` is `None`) and the record carrying the same date, query and page
with `Country` equal to the empty string receive the *same* key, so the
claim that the two keys differ is false. -/
theorem c2_counterexample_key_ignores_batch :
    buildRow6 dims3 { keys := ["2025-09-01", "hvac", "/x"], metrics := () } =
      { Date := some (DateVal.str "2025-09-01"), Query := some "hvac", Page := some "/x",
        Country := none, Device := none, metrics := () } ∧
    generate_unique_key
      { Date := some (DateVal.str "2025-09-01"), Query := some "hvac", Page := some "/x",
        Country := none, Device := none, metrics := () } =
    generate_unique_key
      { Date := some (DateVal.str "2025-09-01"), Query := some "hvac", Page := some "/x",
        Country := some "", Device := none, metrics := () } :=
  ⟨rfl, rfl⟩

/-- C2 amended: the rev6 key is a function of the five normalized field
values only.  A missing field and an empty field normalize identically, and
the metrics payload is ignored, so which batch produced a record never
enters its key: records with equal present natural-key values collide
across batches. -/
theorem c2_key_depends_only_on_field_values :
    ∀ (μ ν : Type) (dv : Option DateVal) (q p dev : Option String) (m₁ : μ) (m₂ : ν),
      generate_unique_key
        { Date := dv, Query := q, Page := p, Country := none, Device := dev, metrics := m₁ } =
      generate_unique_key
        { Date := dv, Query := q, Page := p, Country := some "", Device := dev, metrics := m₂ } :=
  fun _ _ _ _ _ _ _ _ => rfl

/-- C3: guarantees of the per-page duplicate filter.  The emitted records
have pairwise distinct keys, none of their keys is in the input key set,
a page with two normalization-equivalent entries yields exactly the first
of them, and a record whose key is already present is dropped leaving the
set unchanged. -/
theorem c3_filter_new_guarantees :
    (∀ (μ : Type) (dims : List String) (rows : List (GscApiRow μ)) (ex : List String),
        ((filterRows6 dims rows ex).1.map KeyedRow6.unique_key).Nodup ∧
          ∀ o ∈ (filterRows6 dims rows ex).1, o.unique_key ∉ ex) ∧
    (filterRows6 dims3 [rawHvacUpper, rawHvacLower] []).1 =
      [{ row := buildRow6 dims3 rawHvacUpper,
         unique_key := generate_unique_key (buildRow6 dims3 rawHvacUpper) }] ∧
    (∀ (μ : Type) (dims : List String) (r : GscApiRow μ) (ex : List String),
        generate_unique_key (buildRow6 dims r) ∈ ex →
        filterRows6 dims [r] ex = ([], ex)) := by
  refine ⟨fun μ dims rows ex => ⟨(filterRows6_spec dims rows ex).2,
    (filterRows6_spec dims rows ex).1⟩, ?_, fun μ dims r ex h => filterRows6_skip dims r ex h⟩
  have hk : generate_unique_key (buildRow6 dims3 rawHvacLower) =
      generate_unique_key (buildRow6 dims3 rawHvacUpper) :=
    congrArg sha256hexStr (by decide)
  simp [filterRows6, hk]

/-- C3 witness: a record whose key is already in the set is dropped
silently. -/
theorem c3_witness :
    filterRows6 dims3 [rawHvacLower]
        [generate_unique_key (buildRow6 dims3 rawHvacLower)] =
      ([], [generate_unique_key (buildRow6 dims3 rawHvacLower)]) :=
  c3_filter_new_guarantees.2.2 Unit dims3 rawHvacLower _ (List.mem_cons_self _ _)

/-- C4: the rev 1 stable key is determined by the normalized query, page
and date alone, and normalization identifies trim, case and trailing-slash
variants: the key of (query `A `, page `/x/`) equals the key of (query
`a`, page `/x`) on the same date. -/
theorem c4_key_determined_by_normalized_fields :
    (∀ r₁ r₂ : Row1, normQueryR1 r₁ = normQueryR1 r₂ → normPageR1 r₁ = normPageR1 r₂ →
        dateKeyPart r₁.Date = dateKeyPart r₂.Date → stable_key r₁ = stable_key r₂) ∧
    stable_key { Date := some (DateVal.str "2025-09-01"), Query := some "A ", Page := some "/x/" } =
      stable_key { Date := some (DateVal.str "2025-09-01"), Query := some "a", Page := some "/x" } := by
  have h : ∀ r₁ r₂ : Row1, normQueryR1 r₁ = normQueryR1 r₂ → normPageR1 r₁ = normPageR1 r₂ →
      dateKeyPart r₁.Date = dateKeyPart r₂.Date → stable_key r₁ = stable_key r₂ := by
    intro r₁ r₂ h₁ h₂ h₃
    unfold stable_key preHashR1
    rw [h₁, h₂, h₃]
  exact ⟨h, h _ _ (by decide) (by decide) (by decide)⟩

/-- C4 witness: the normalization-equivalence instance of the claim. -/
theorem c4_witness :
    stable_key { Date := some (DateVal.str "2025-09-01"), Query := some "A ", Page := some "/x/" } =
      stable_key { Date := some (DateVal.str "2025-09-01"), Query := some "a", Page := some "/x" } :=
  c4_key_determined_by_normalized_fields.1 _ _ (by decide) (by decide) (by decide)

/-- C5 counterexample: the sitewide batch of the searchtype_web revision
issues a `WRITE_TRUNCATE` load whenever it has incomplete rows to rewrite,
so not every warehouse write of a run uses append mode. -/
theorem c5_counterexample_truncate_write :
    sitewideLoadModes true false = [WriteMode.truncate] ∧
      WriteMode.truncate ≠ WriteMode.append :=
  ⟨rfl, by decide⟩

/-- C5 amended: rev6's `upload_to_bq` always loads with append mode, and
every write of the sitewide batch is an append except the step 2 table
rewrite, which uses truncate mode and runs exactly when incomplete rows
were found. -/
theorem c5_write_modes :
    upload_to_bq_mode = WriteMode.append ∧
    (∀ (u n : Bool) (m : WriteMode), m ∈ sitewideLoadModes u n →
        m = WriteMode.append ∨ (m = WriteMode.truncate ∧ u = true)) := by
  refine ⟨rfl, ?_⟩
  intro u n m hm
  cases u <;> cases n <;> simp [sitewideLoadModes] at hm
  · subst hm; exact Or.inl rfl
  · subst hm; exact Or.inr ⟨rfl, rfl⟩
  · rcases hm with h | h
    · subst h; exact Or.inr ⟨rfl, rfl⟩
    · subst h; exact Or.inl rfl

/-- C5 witness: the append-only step applied at a concrete run shape. -/
theorem c5_witness :
    WriteMode.append = WriteMode.append ∨
      (WriteMode.append = WriteMode.truncate ∧ false = true) :=
  c5_write_modes.2 false true WriteMode.append (by decide)

/-- C6 counterexample: the delimited concatenation is not injective on
normalized field tuples.  Query `a|b` with page `c` and query `a` with page
`b|c` have different normalized tuples but the same pre-hash string
`a|b|c|2025-09-01`, hence the same key. -/
theorem c6_counterexample_delimiter_collision :
    normQueryR1 rowDelimA ≠ normQueryR1 rowDelimB ∧
    preHashR1 rowDelimA = preHashR1 rowDelimB ∧
    stable_key rowDelimA = stable_key rowDelimB :=
  ⟨by decide, by decide, congrArg sha256hexStr (by decide)⟩

/-- C6 amended: when the normalized query and page fields are free of the
delimiter character, the pre-hash concatenation is injective on the
normalized tuple; and the pair named by the claim (query `a|b` with empty
page versus query `a` with page `b`) does produce different pre-hash
strings. -/
theorem c6_prehash_injective_when_delimiter_free :
    (∀ r₁ r₂ : Row1,
        '|' ∉ (normQueryR1 r₁).data → '|' ∉ (normQueryR1 r₂).data →
        '|' ∉ (normPageR1 r₁).data → '|' ∉ (normPageR1 r₂).data →
        preHashR1 r₁ = preHashR1 r₂ →
        normQueryR1 r₁ = normQueryR1 r₂ ∧ normPageR1 r₁ = normPageR1 r₂ ∧
          dateKeyPart r₁.Date = dateKeyPart r₂.Date) ∧
    preHashR1 rowDelimC ≠ preHashR1 rowDelimD := by
  constructor
  · intro r₁ r₂ hq₁ hq₂ hp₁ hp₂ heq
    have hdata := congrArg String.data heq
    rw [preHashR1_data, preHashR1_data] at hdata
    have h₁ := splitJoinChars _ _ _ _ hq₁ hq₂ hdata
    have h₂ := splitJoinChars _ _ _ _ hp₁ hp₂ h₁.2
    exact ⟨String.ext h₁.1, String.ext h₂.1, String.ext h₂.2⟩
  · decide

/-- C6 witness: the injectivity direction applied to a concrete
delimiter-free pair related by normalization. -/
theorem c6_witness :
    normQueryR1 rowTrimA = normQueryR1 rowTrimB ∧
      normPageR1 rowTrimA = normPageR1 rowTrimB ∧
      dateKeyPart rowTrimA.Date = dateKeyPart rowTrimB.Date :=
  c6_prehash_injective_when_delimiter_free.1 rowTrimA rowTrimB
    (by decide) (by decide) (by decide) (by decide) (by decide)

/-- C7: pagination termination and offset bookkeeping.  When the page at
offset 0 has exactly `L` rows (the row limit) and the page at offset `L`
has `L - 1` rows, the fetch loop issues exactly the two requests at
offsets 0 and `L` for any remaining fuel, never a third; and in every
trace, each successive request's offset is the previous offset plus the
number of rows the previous page returned. -/
theorem c7_pagination_terminates {α : Type} (api : Nat → List α) (L : Nat)
    (hL : 1 ≤ L) (h₀ : (api 0).length = L) (h₁ : (api L).length = L - 1) :
    (∀ fuel, pageTrace api L (fuel + 2) 0 = [(0, api 0), (L, api L)]) ∧
    (∀ fuel s i (d e : Nat × List α), (pageTrace api L fuel s).get? i = some d →
        (pageTrace api L fuel s).get? (i + 1) = some e →
        e.1 = d.1 + d.2.length) := by
  constructor
  · intro fuel
    have hne : (api 0).isEmpty = false := by
      rw [Bool.eq_false_iff]
      intro htrue
      rw [List.isEmpty_iff.mp htrue] at h₀
      simp at h₀
      omega
    by_cases hemp : (api L).isEmpty
    · simp [pageTrace, hne, hemp, h₀]
    · have hlt : (api L).length < L := by
        rw [h₁]
        exact Nat.sub_lt (Nat.lt_of_lt_of_le Nat.zero_lt_one hL) Nat.one_pos
      simp [pageTrace, hne, hemp, hlt, h₀]
  · exact pageTrace_chain api L

/-- C7 witness: with row limit 2, a full first page and a one-row second
page, the loop issues exactly the requests at offsets 0 and 2. -/
theorem c7_witness : pageTrace c7api 2 2 0 = [(0, [10, 20]), (2, [30])] :=
  (c7_pagination_terminates c7api 2 (by decide) (by decide) (by decide)).1 0

/-- C8 counterexample: the rev 1 fetch loop applies one shared retry bound
to every exception.  Four transient errors followed by a successful page
abort the batch and yield nothing, although the claim says non-fatal
errors are retried indefinitely; and the rev6 loop retries even a
permission-denied error without any bound, yielding the page after five
such errors, although the claim says fatal errors abort after a bounded
number of retries. -/
theorem c8_counterexample_no_error_classification :
    fetchR1 ROW_LIMIT MAX_RETRIES
        [Except.error "timeout", Except.error "timeout", Except.error "timeout",
         Except.error "timeout", Except.ok [7]] 0 0 = ([] : List (Nat × List Nat)) ∧
    fetchR6 ROW_LIMIT
        [Except.error "403 permission denied", Except.error "403 permission denied",
         Except.error "403 permission denied", Except.error "403 permission denied",
         Except.error "403 permission denied", Except.ok [7]] 0 = [(0, [7])] :=
  ⟨rfl, rfl⟩

/-- C8 amended: on any exception (the code never classifies errors) the
rev 1 loop retries the same offset after the fixed delay while the shared
retry count stays within `MAX_RETRIES`, and breaks out of the batch once
the count exceeds the bound; the rev6 loop retries the same offset on any
exception with no bound at all; and a retry that then succeeds is
transparent, yielding exactly one page result for that offset. -/
theorem c8_retry_semantics :
    (∀ (α : Type) (L maxR sr rc : Nat) (e : String) (rest : List (Except String (List α))),
        rc + 1 ≤ maxR →
        fetchR1 L maxR (Except.error e :: rest) sr rc = fetchR1 L maxR rest sr (rc + 1)) ∧
    (∀ (α : Type) (L maxR sr rc : Nat) (e : String) (rest : List (Except String (List α))),
        maxR < rc + 1 →
        fetchR1 L maxR (Except.error e :: rest) sr rc = []) ∧
    (∀ (α : Type) (L sr : Nat) (e : String) (rest : List (Except String (List α))),
        fetchR6 L (Except.error e :: rest) sr = fetchR6 L rest sr) ∧
    (∀ (α : Type) (L maxR : Nat) (e : String) (rows : List α),
        rows ≠ [] → rows.length < L → 1 ≤ maxR →
        fetchR1 L maxR [Except.error e, Except.ok rows] 0 0 = [(0, rows)]) := by
  refine ⟨?_, ?_, ?_, ?_⟩
  · intro α L maxR sr rc e rest h
    simp [fetchR1, Nat.not_lt.mpr h]
  · intro α L maxR sr rc e rest h
    simp [fetchR1, h]
  · intro α L sr e rest
    simp [fetchR6]
  · intro α L maxR e rows hne hlen hmax
    have hb : ¬ maxR < 0 + 1 := by omega
    have hemp : rows.isEmpty = false := by simp [List.isEmpty_iff, hne]
    simp [fetchR1, hb, hemp, hlen]

/-- C8 witness: one transient error, then success, yields exactly the one
page at offset 0. -/
theorem c8_witness :
    fetchR1 ROW_LIMIT MAX_RETRIES [Except.error "timeout", Except.ok [5]] 0 0 =
      [(0, ([5] : List Nat))] :=
  c8_retry_semantics.2.2.2 Nat ROW_LIMIT MAX_RETRIES "timeout" [5]
    (by decide) (by decide) (by decide)

/-- C9 counterexample: rev5's `stable_key` has no fallback branch for a
missing date; on a record whose `Date` is `None` it raises
`AttributeError` instead of returning a digest, so one malformed record
does abort the page in that revision. -/
theorem c9_counterexample_rev5_missing_date_raises :
    stable_key_rev5
      { Date := none, Query := some "hvac", Page := some "/a",
        Country := some "usa", Device := some "desktop",
        SearchAppearance := some "organic", metrics := () } =
      Except.error "AttributeError: NoneType object has no attribute strftime" :=
  rfl

/-- C9 amended: rev6's `generate_unique_key` is total and normalizes a
missing query, page, country or device to the empty string, but a missing
date becomes the four-character string `None` (via `str(None)[:10]`), not
the empty string; and rev5's `stable_key` raises on every record whose
date is missing, whatever the other fields are. -/
theorem c9_malformed_record_normalization :
    (∀ (μ : Type) (dv : Option DateVal) (m : μ),
        generate_unique_key
          { Date := dv, Query := none, Page := none, Country := none,
            Device := none, metrics := m } =
        generate_unique_key
          { Date := dv, Query := some "", Page := some "", Country := some "",
            Device := some "", metrics := m }) ∧
    (∀ (μ : Type) (m : μ),
        preHashRow6
          ({ Date := none, Query := none, Page := none, Country := none,
             Device := none, metrics := m } : Row6 μ) = "None||||") ∧
    (∀ (μ : Type) (q p c d sa : Option String) (m : μ),
        stable_key_rev5
          { Date := none, Query := q, Page := p, Country := c, Device := d,
            SearchAppearance := sa, metrics := m } =
        Except.error "AttributeError: NoneType object has no attribute strftime") := by
  exact ⟨fun μ dv m => rfl, fun μ m => rfl, fun μ q p c d sa m => rfl⟩

/-- C10: the sitewide and no-index sentinel rows are keyed by
`generate_unique_key` like every other record, so a genuine API record
whose query text lowercases to the sentinel text (and whose page
normalizes to it) collides with the sentinel's key, and whichever of the
two is processed second is dropped by the duplicate filter. -/
theorem c10_sentinel_key_collision :
    generate_unique_key (sitewideRow "2025-09-01" ()) =
      generate_unique_key (buildRow6 dims3 rawSiteTotal) ∧
    generate_unique_key (noIndexRow "2025-09-01" ()) =
      generate_unique_key (buildRow6 dims3 rawNoIndex) ∧
    filterRows6 dims3 [rawSiteTotal] [generate_unique_key (sitewideRow "2025-09-01" ())] =
      ([], [generate_unique_key (sitewideRow "2025-09-01" ())]) := by
  have h₁ : preHashRow6 (sitewideRow "2025-09-01" ()) =
      preHashRow6 (buildRow6 dims3 rawSiteTotal) := by decide
  have hk : generate_unique_key (buildRow6 dims3 rawSiteTotal) =
      generate_unique_key (sitewideRow "2025-09-01" ()) :=
    (congrArg sha256hexStr h₁).symm
  refine ⟨congrArg sha256hexStr h₁, congrArg sha256hexStr (by decide), ?_⟩
  exact filterRows6_skip dims3 rawSiteTotal _
    (by rw [hk]; exact List.mem_cons_self _ _)

end GscToBq
